import Mathlib

/-! Shallow embedding of the Array30 input-method core: the key map,
dictionary interface, input state machine and input engine, translated
from the Rust sources (keymap.rs, dict.rs, state.rs, input_engine.rs).
Rust `String` buffers holding key symbols are modelled as `List Char`
(pop removes the last element); the composing and output buffers, which
hold committed text, are modelled as Lean `String`. `HashMap` tables are
modelled by their lookup functions. -/

/-- Reserved phrase-marker keystroke: the ASCII apostrophe, code point 39. -/
def phraseMarker : Char := Char.ofNat 39

/-- Input mode (state.rs `InputMode`): normal entry or phrase entry. -/
inductive InputMode where
  | Normal
  | PhraseInput
  deriving DecidableEq

/-- Key handling result (input_engine.rs `KeyResult`). -/
inductive KeyResult where
  | NoChange
  | NeedUpdate
  | Committed
  deriving DecidableEq

/-- Array30 key enumeration (keymap.rs `Array30Key`). -/
inductive Array30Key where
  | A | B | C | D | E | F | G | H | I | J | K | L | M
  | N | O | P | Q | R | S | T | U | V | W | X | Y | Z
  | Period | Slash | Semicolon | Comma
  deriving DecidableEq

/-- Key lookup (keymap.rs `Array30Key::from_char`): maps a character to its
Array30 key, `none` for unmapped characters; letters are case-insensitive and
the apostrophe (the phrase marker) maps to `Slash`. -/
def Array30Key.from_char (c : Char) : Option Array30Key :=
  match c with
  | 'a' | 'A' => some Array30Key.A
  | 'b' | 'B' => some Array30Key.B
  | 'c' | 'C' => some Array30Key.C
  | 'd' | 'D' => some Array30Key.D
  | 'e' | 'E' => some Array30Key.E
  | 'f' | 'F' => some Array30Key.F
  | 'g' | 'G' => some Array30Key.G
  | 'h' | 'H' => some Array30Key.H
  | 'i' | 'I' => some Array30Key.I
  | 'j' | 'J' => some Array30Key.J
  | 'k' | 'K' => some Array30Key.K
  | 'l' | 'L' => some Array30Key.L
  | 'm' | 'M' => some Array30Key.M
  | 'n' | 'N' => some Array30Key.N
  | 'o' | 'O' => some Array30Key.O
  | 'p' | 'P' => some Array30Key.P
  | 'q' | 'Q' => some Array30Key.Q
  | 'r' | 'R' => some Array30Key.R
  | 's' | 'S' => some Array30Key.S
  | 't' | 'T' => some Array30Key.T
  | 'u' | 'U' => some Array30Key.U
  | 'v' | 'V' => some Array30Key.V
  | 'w' | 'W' => some Array30Key.W
  | 'x' | 'X' => some Array30Key.X
  | 'y' | 'Y' => some Array30Key.Y
  | 'z' | 'Z' => some Array30Key.Z
  | '.' => some Array30Key.Period
  | '/' => some Array30Key.Slash
  | ';' => some Array30Key.Semicolon
  | ',' => some Array30Key.Comma
  | c => if c = phraseMarker then some Array30Key.Slash else none

/-- Dictionary (dict.rs `Dictionary`): the single-character table and the
phrase table, each modelled by its lookup function from a code to the
optional ordered entry vector. -/
structure Dictionary where
  char_table : List Char → Option (List String)
  phrase_table : List Char → Option (List String)

/-- Lookup of single-character candidates (dict.rs `lookup_chars`). -/
def Dictionary.lookup_chars (d : Dictionary) (code : List Char) : Option (List String) :=
  d.char_table code

/-- Lookup of phrase candidates (dict.rs `lookup_phrases`). -/
def Dictionary.lookup_phrases (d : Dictionary) (code : List Char) : Option (List String) :=
  d.phrase_table code

/-- Input state (state.rs `InputState`). -/
structure InputState where
  raw_keys : List Char
  composing : String
  output : String
  mode : InputMode
  current_code : List Char
  has_phrase_marker : Bool
  deriving DecidableEq

/-- Initial input state (state.rs `InputState::new`). -/
def InputState.new : InputState :=
  { raw_keys := [], composing := "", output := "", mode := InputMode.Normal,
    current_code := [], has_phrase_marker := false }

/-- Abort of the current entry (state.rs `clear_composing`): resets the raw
key log, composing buffer, current code, phrase flag and mode; output kept. -/
def InputState.clear_composing (s : InputState) : InputState :=
  { s with raw_keys := [], composing := "", current_code := [],
           has_phrase_marker := false, mode := InputMode.Normal }

/-- Full clear (state.rs `clear_all`): `clear_composing` plus output reset. -/
def InputState.clear_all (s : InputState) : InputState :=
  { s.clear_composing with output := "" }

/-- Keystroke logging (state.rs `add_key`): appends to the raw key log. -/
def InputState.add_key (s : InputState) (key : Char) : InputState :=
  { s with raw_keys := s.raw_keys ++ [key] }

/-- Phrase-mode entry (state.rs `set_phrase_mode`): switches the mode, sets
the phrase flag and logs the marker keystroke. -/
def InputState.set_phrase_mode (s : InputState) : InputState :=
  ({ s with mode := InputMode.PhraseInput, has_phrase_marker := true }).add_key phraseMarker

/-- Commit of the composing buffer (state.rs `commit_composing`): if the
composing buffer is non-empty, appends it to output then clears the entry;
no-op otherwise. Rust `String::is_empty` is equality with the empty string. -/
def InputState.commit_composing (s : InputState) : InputState :=
  if s.composing = "" then s
  else ({ s with output := s.output ++ s.composing }).clear_composing

/-- Direct commit (state.rs `commit_direct`): appends text to the output. -/
def InputState.commit_direct (s : InputState) (text : String) : InputState :=
  { s with output := s.output ++ text }

/-- Backspace (state.rs `backspace`): pops the last symbol of the current
code; when that succeeds, also pops the raw key log, leaving phrase mode if
the popped raw key was the marker, and reports `true`. The result pairs the
returned flag with the updated state; as in the source, the current-code pop
persists even when the raw key log turns out to be empty. -/
def InputState.backspace (s : InputState) : Bool × InputState :=
  match s.current_code.getLast? with
  | none => (false, s)
  | some _ =>
    let s1 : InputState := { s with current_code := s.current_code.dropLast }
    match s1.raw_keys.getLast? with
    | none => (false, s1)
    | some c =>
      if c = phraseMarker then
        (true, { s1 with raw_keys := s1.raw_keys.dropLast,
                         mode := InputMode.Normal, has_phrase_marker := false })
      else
        (true, { s1 with raw_keys := s1.raw_keys.dropLast })

/-- Candidate (state.rs `Candidate`). -/
structure Candidate where
  text : String
  code : List Char
  is_phrase : Bool
  deriving DecidableEq

/-- Candidate constructor (state.rs `Candidate::new`). -/
def Candidate.mk' (text : String) (code : List Char) (flag : Bool) : Candidate :=
  { text := text, code := code, is_phrase := flag }

/-- Single-character candidate (state.rs `Candidate::char`). -/
def Candidate.char (text : String) (code : List Char) : Candidate :=
  Candidate.mk' text code false

/-- Phrase candidate (state.rs `Candidate::phrase`). -/
def Candidate.phrase (text : String) (code : List Char) : Candidate :=
  Candidate.mk' text code true

/-- Input engine (input_engine.rs `InputEngine`). -/
structure InputEngine where
  dict : Dictionary
  state : InputState
  candidates : List Candidate
  page_index : Nat
  page_size : Nat

/-- Engine constructor (input_engine.rs `InputEngine::new`): empty state and
candidate list, page size 9 (digit keys 1 to 9). -/
def InputEngine.new (dict : Dictionary) : InputEngine :=
  { dict := dict, state := InputState.new, candidates := [], page_index := 0,
    page_size := 9 }

/-- Candidate recomputation (input_engine.rs `update_candidates`): clears the
list and page index; for a non-empty code, phrase mode queries the phrase
table first, and the character table is consulted only when the list is
still empty afterwards. -/
def InputEngine.update_candidates (e : InputEngine) : InputEngine :=
  let code := e.state.current_code
  if code = [] then { e with candidates := ([] : List Candidate), page_index := 0 }
  else
    let phrase_cands : List Candidate :=
      if e.state.mode = InputMode.PhraseInput then
        match e.dict.lookup_phrases code with
        | some phrases => phrases.map (fun p => Candidate.phrase p code)
        | none => []
      else []
    let cands : List Candidate :=
      if phrase_cands = [] then
        match e.dict.lookup_chars code with
        | some chars => chars.map (fun ch => Candidate.char ch code)
        | none => []
      else phrase_cands
    { e with candidates := cands, page_index := 0 }

/-- Candidate selection (input_engine.rs `select_candidate`): the index is
page-relative; on a valid absolute index the candidate text is staged as the
composing content, immediately committed, and the list and page are reset. -/
def InputEngine.select_candidate (e : InputEngine) (index : Nat) : Bool × InputEngine :=
  let actual_index := e.page_index * e.page_size + index
  if h : actual_index < e.candidates.length then
    let candidate := e.candidates.get ⟨actual_index, h⟩
    let st1 := { e.state with composing := candidate.text }
    (true, { e with state := st1.commit_composing, candidates := ([] : List Candidate),
                    page_index := 0 })
  else (false, e)

/-- Key dispatch (input_engine.rs `handle_key`), with the arms in source
order: phrase marker, backspace, escape, commit keys, digits 1 to 9, digit 0,
mapped Array30 keys, and pass-through for everything else. -/
def InputEngine.handle_key (e : InputEngine) (key : Char) : KeyResult × InputEngine :=
  if key = phraseMarker then
    if 1 ≤ e.state.current_code.length ∧ e.state.current_code.length ≤ 4 then
      (KeyResult.NeedUpdate, ({ e with state := e.state.set_phrase_mode }).update_candidates)
    else
      (KeyResult.NeedUpdate, e)
  else if key = Char.ofNat 8 ∨ key = Char.ofNat 127 then
    let e1 := if e.candidates ≠ [] then { e with candidates := ([] : List Candidate), page_index := 0 } else e
    let r := e1.state.backspace
    let e2 := { e1 with state := r.2 }
    (KeyResult.NeedUpdate, if r.1 then e2.update_candidates else e2)
  else if key = Char.ofNat 27 then
    (KeyResult.NeedUpdate,
      { e with state := e.state.clear_composing, candidates := ([] : List Candidate), page_index := 0 })
  else if key = '\n' ∨ key = '\r' ∨ key = ' ' then
    if e.candidates ≠ [] then
      (KeyResult.NeedUpdate, (e.select_candidate 0).2)
    else if e.state.current_code ≠ [] then
      (KeyResult.NeedUpdate, e)
    else
      (KeyResult.NoChange, e)
  else if '1' ≤ key ∧ key ≤ '9' then
    if e.candidates ≠ [] then
      let idx := key.toNat - Char.toNat '1'
      let r := e.select_candidate idx
      if r.1 then (KeyResult.Committed, r.2) else (KeyResult.NeedUpdate, r.2)
    else
      (KeyResult.Committed, { e with state := e.state.commit_direct (String.singleton key) })
  else if key = '0' then
    if e.candidates ≠ [] then
      (KeyResult.Committed, (e.select_candidate 9).2)
    else
      (KeyResult.Committed, { e with state := e.state.commit_direct (String.singleton key) })
  else if (Array30Key.from_char key).isSome then
    let e1 := if e.candidates ≠ [] then { e with candidates := ([] : List Candidate), page_index := 0 } else e
    let e2 := { e1 with state := e1.state.add_key key }
    let e3 :=
      if e2.state.mode = InputMode.PhraseInput then
        if e2.state.current_code.length < 4 then
          { e2 with state := { e2.state with current_code := e2.state.current_code ++ [key] } }
        else e2
      else
        if e2.state.current_code.length < 4 then
          { e2 with state := { e2.state with current_code := e2.state.current_code ++ [key] } }
        else e2
    (KeyResult.NeedUpdate, e3.update_candidates)
  else
    let e1 := if e.state.current_code ≠ [] then { e with state := e.state.clear_composing } else e
    (KeyResult.Committed, { e1 with state := e1.state.commit_direct (String.singleton key) })

/-- Paging forward (input_engine.rs `next_page`): advances only while a
further page exists; the page count is the ceiling of length over page size. -/
def InputEngine.next_page (e : InputEngine) : Bool × InputEngine :=
  let total_pages := (e.candidates.length + e.page_size - 1) / e.page_size
  if e.page_index + 1 < total_pages then (true, { e with page_index := e.page_index + 1 })
  else (false, e)

/-- Paging backward (input_engine.rs `prev_page`). -/
def InputEngine.prev_page (e : InputEngine) : Bool × InputEngine :=
  if 0 < e.page_index then (true, { e with page_index := e.page_index - 1 })
  else (false, e)

/-- Output reset (input_engine.rs `clear_output`). -/
def InputEngine.clear_output (e : InputEngine) : InputEngine :=
  { e with state := e.state.clear_all }

/-- Feeding a key sequence one key at a time, keeping the updated engine. -/
def feedKeys (e : InputEngine) (keys : List Char) : InputEngine :=
  keys.foldl (fun acc k => (acc.handle_key k).2) e

/-- Public engine operations, for reachability statements. -/
inductive EngineOp where
  | key (c : Char)
  | select (i : Nat)
  | nextPage
  | prevPage
  | clearOutput

/-- Effect of one public engine operation on the engine. -/
def applyOp (e : InputEngine) : EngineOp → InputEngine
  | EngineOp.key c => (e.handle_key c).2
  | EngineOp.select i => (e.select_candidate i).2
  | EngineOp.nextPage => (e.next_page).2
  | EngineOp.prevPage => (e.prev_page).2
  | EngineOp.clearOutput => e.clear_output

/-- Engine reached from the initial engine by a sequence of operations. -/
def runOps (d : Dictionary) (ops : List EngineOp) : InputEngine :=
  ops.foldl applyOp (InputEngine.new d)

/-- Dictionary with no entries at all. -/
def emptyDict : Dictionary :=
  { char_table := fun _ => none, phrase_table := fun _ => none }

/-! Helper lemmas about the engine operations. -/

theorem update_candidates_state (e : InputEngine) :
    (e.update_candidates).state = e.state := by
  unfold InputEngine.update_candidates
  dsimp only
  split <;> rfl

theorem update_candidates_dict (e : InputEngine) :
    (e.update_candidates).dict = e.dict := by
  unfold InputEngine.update_candidates
  dsimp only
  split <;> rfl

theorem update_candidates_page_size (e : InputEngine) :
    (e.update_candidates).page_size = e.page_size := by
  unfold InputEngine.update_candidates
  dsimp only
  split <;> rfl

theorem select_candidate_of_lt (e : InputEngine) (i : Nat)
    (h : e.page_index * e.page_size + i < e.candidates.length) :
    e.select_candidate i =
      (true,
        { e with
          state := ({ e.state with
            composing := (e.candidates.get ⟨e.page_index * e.page_size + i, h⟩).text }).commit_composing,
          candidates := ([] : List Candidate), page_index := 0 }) := by
  unfold InputEngine.select_candidate
  dsimp only
  rw [dif_pos h]

theorem select_candidate_of_ge (e : InputEngine) (i : Nat)
    (h : ¬ e.page_index * e.page_size + i < e.candidates.length) :
    e.select_candidate i = (false, e) := by
  unfold InputEngine.select_candidate
  dsimp only
  rw [dif_neg h]

theorem commit_composing_of_eq (s : InputState) (h : s.composing = "") :
    s.commit_composing = s := by
  unfold InputState.commit_composing
  rw [if_pos h]

theorem commit_composing_of_ne (s : InputState) (h : s.composing ≠ "") :
    s.commit_composing = ({ s with output := s.output ++ s.composing }).clear_composing := by
  unfold InputState.commit_composing
  rw [if_neg h]

theorem backspace_of_nil (s : InputState) (h : s.current_code = []) :
    s.backspace = (false, s) := by
  unfold InputState.backspace
  rw [h]
  rfl

theorem backspace_of_ne (s : InputState) (hc : s.current_code ≠ []) (hr : s.raw_keys ≠ []) :
    (s.backspace).1 = true ∧
    (s.backspace).2.current_code = s.current_code.dropLast ∧
    (s.backspace).2.raw_keys = s.raw_keys.dropLast ∧
    (s.backspace).2.composing = s.composing ∧
    (s.backspace).2.output = s.output ∧
    (s.raw_keys.getLast? = some phraseMarker →
      (s.backspace).2.mode = InputMode.Normal ∧ (s.backspace).2.has_phrase_marker = false) := by
  unfold InputState.backspace
  cases hcl : s.current_code.getLast? with
  | none => exact absurd (List.getLast?_eq_none_iff.mp hcl) hc
  | some c1 =>
    cases hrl : s.raw_keys.getLast? with
    | none => exact absurd (List.getLast?_eq_none_iff.mp hrl) hr
    | some c2 =>
      dsimp only
      rw [hrl]
      dsimp only
      by_cases hm : c2 = phraseMarker
      · rw [if_pos hm]
        refine ⟨rfl, rfl, rfl, rfl, rfl, fun _ => ⟨rfl, rfl⟩⟩
      · rw [if_neg hm]
        refine ⟨rfl, rfl, rfl, rfl, rfl, fun hmk => ?_⟩
        exact absurd (Option.some.inj hmk) hm

theorem update_candidates_chars_case (e : InputEngine) (hc : e.state.current_code ≠ [])
    (hph : e.state.mode = InputMode.PhraseInput →
           e.dict.lookup_phrases e.state.current_code = none ∨
           e.dict.lookup_phrases e.state.current_code = some []) :
    (e.update_candidates).candidates
      = ((e.dict.lookup_chars e.state.current_code).getD []).map
          (fun ch => Candidate.char ch e.state.current_code) := by
  by_cases hm : e.state.mode = InputMode.PhraseInput
  · rcases hph hm with h1 | h1 <;>
      cases hch : e.dict.lookup_chars e.state.current_code <;>
        simp [InputEngine.update_candidates, hc, hm, h1, hch]
  · cases hch : e.dict.lookup_chars e.state.current_code <;>
      simp [InputEngine.update_candidates, hc, hm, hch]

theorem update_candidates_phrase_case (e : InputEngine) (hc : e.state.current_code ≠ [])
    (hm : e.state.mode = InputMode.PhraseInput) (ps : List String)
    (hps : e.dict.lookup_phrases e.state.current_code = some ps) (hne : ps ≠ []) :
    (e.update_candidates).candidates
      = ps.map (fun p => Candidate.phrase p e.state.current_code) := by
  simp [InputEngine.update_candidates, hc, hm, hps, hne]

theorem next_page_spec (e : InputEngine) :
    (e.next_page = (true, { e with page_index := e.page_index + 1 }) ∧
       e.page_index + 1 < (e.candidates.length + e.page_size - 1) / e.page_size) ∨
    (e.next_page = (false, e) ∧
       ¬ e.page_index + 1 < (e.candidates.length + e.page_size - 1) / e.page_size) := by
  unfold InputEngine.next_page
  dsimp only
  split_ifs with h
  · exact Or.inl ⟨rfl, h⟩
  · exact Or.inr ⟨rfl, h⟩

theorem prev_page_spec (e : InputEngine) :
    (e.prev_page = (true, { e with page_index := e.page_index - 1 }) ∧ 0 < e.page_index) ∨
    (e.prev_page = (false, e) ∧ ¬ 0 < e.page_index) := by
  unfold InputEngine.prev_page
  split_ifs with h
  · exact Or.inl ⟨rfl, h⟩
  · exact Or.inr ⟨rfl, h⟩

/-- Paging invariant claimed by the specification: the page start index is a
valid lower bound into the candidate list, or the list is empty at page 0. -/
def pageInvariant (e : InputEngine) : Prop :=
  e.page_index * e.page_size < e.candidates.length ∨
    (e.candidates = [] ∧ e.page_index = 0)

/-! Fixtures: concrete dictionaries, engines and states used by witnesses
and counterexamples. -/

/-- Dictionary holding only the phrase entry for code `ab`. -/
def dictPhrase1 : Dictionary :=
  { char_table := fun _ => none,
    phrase_table := fun c => if c = ['a', 'b'] then some ["XY"] else none }

/-- Engine in phrase mode with current code `ab`, matching `dictPhrase1`. -/
def engPhrase1 : InputEngine :=
  { dict := dictPhrase1,
    state := { raw_keys := ['a', 'b', phraseMarker], composing := "", output := "",
               mode := InputMode.PhraseInput, current_code := ['a', 'b'],
               has_phrase_marker := true },
    candidates := [], page_index := 0, page_size := 9 }

/-- Engine whose single candidate carries an empty text. -/
def engEmptyText : InputEngine :=
  { dict := emptyDict,
    state := { raw_keys := ['a'], composing := "", output := "",
               mode := InputMode.Normal, current_code := ['a'], has_phrase_marker := false },
    candidates := [{ text := "", code := ['a'], is_phrase := false }],
    page_index := 0, page_size := 9 }

/-- Engine with one ordinary candidate of text `X` and some prior output. -/
def engSelect1 : InputEngine :=
  { dict := emptyDict,
    state := { raw_keys := ['a'], composing := "", output := "Z",
               mode := InputMode.Normal, current_code := ['a'], has_phrase_marker := false },
    candidates := [{ text := "X", code := ['a'], is_phrase := false }],
    page_index := 0, page_size := 9 }

/-- State whose current code is non-empty while the raw key log is empty. -/
def stateDesync : InputState :=
  { raw_keys := [], composing := "", output := "", mode := InputMode.Normal,
    current_code := ['a'], has_phrase_marker := false }

/-- Phrase-mode state whose last raw key is the phrase marker. -/
def stateMarker : InputState :=
  { raw_keys := ['a', phraseMarker], composing := "", output := "",
    mode := InputMode.PhraseInput, current_code := ['a', 'b'],
    has_phrase_marker := true }

/-- Engine with ten candidates on page 0, page size 9. -/
def engPage : InputEngine :=
  { dict := emptyDict,
    state := { raw_keys := ['a'], composing := "", output := "",
               mode := InputMode.Normal, current_code := ['a'], has_phrase_marker := false },
    candidates := List.replicate 10 { text := "X", code := ['a'], is_phrase := false },
    page_index := 0, page_size := 9 }

/-! Claim theorems. -/

/-- C1: for every non-empty current code, update_candidates in PhraseInput
mode takes exactly the phrase-table entry whenever that lookup yields a
non-empty result, never consulting or merging the character table; in Normal
mode, or when the phrase lookup yields no matches, the candidate list equals
the character-table entry for the same code (empty when absent), preserving
dictionary insertion order. -/
theorem C1_update_candidates_precedence (e : InputEngine)
    (hc : e.state.current_code ≠ []) :
    (∀ ps, e.state.mode = InputMode.PhraseInput →
        e.dict.lookup_phrases e.state.current_code = some ps → ps ≠ [] →
        (e.update_candidates).candidates
          = ps.map (fun p => Candidate.phrase p e.state.current_code)) ∧
    ((e.state.mode = InputMode.Normal ∨
        e.dict.lookup_phrases e.state.current_code = none ∨
        e.dict.lookup_phrases e.state.current_code = some []) →
      (e.update_candidates).candidates
        = ((e.dict.lookup_chars e.state.current_code).getD []).map
            (fun ch => Candidate.char ch e.state.current_code)) := by
  constructor
  · intro ps hm hps hne
    exact update_candidates_phrase_case e hc hm ps hps hne
  · intro hdisj
    refine update_candidates_chars_case e hc (fun hm => ?_)
    rcases hdisj with hN | h | h
    · rw [hN] at hm
      exact absurd hm (by decide)
    · exact Or.inl h
    · exact Or.inr h

/-- Witness for C1 at a concrete phrase-mode engine. -/
theorem C1_witness :
    engPhrase1.state.current_code ≠ [] ∧
    (engPhrase1.update_candidates).candidates = [Candidate.phrase "XY" ['a', 'b']] :=
  ⟨by decide,
   (C1_update_candidates_precedence engPhrase1 (by decide)).1 ["XY"] rfl rfl (by decide)⟩

/-- C3 counterexample: with a candidate whose text is empty, select_candidate
at a valid index returns true yet leaves current_code and raw_keys untouched,
so the claimed reset does not happen. -/
theorem C3_counterexample :
    engEmptyText.page_index * engEmptyText.page_size + 0 < engEmptyText.candidates.length ∧
    (engEmptyText.select_candidate 0).1 = true ∧
    (engEmptyText.select_candidate 0).2.state.current_code = ['a'] ∧
    (engEmptyText.select_candidate 0).2.state.raw_keys = ['a'] := by
  decide

/-- C3 amended: for every in-bounds page-relative index whose candidate has
non-empty text, select_candidate returns true, appends that text verbatim to
output, and resets current_code, raw_keys, composing and the candidate list
with the page index back to 0; for an empty text the call still returns true
and clears the candidate list and page index, but the buffers stay. -/
theorem C3_select_valid_amended (e : InputEngine) (i : Nat)
    (h : e.page_index * e.page_size + i < e.candidates.length)
    (ht : (e.candidates.get ⟨e.page_index * e.page_size + i, h⟩).text ≠ "") :
    (e.select_candidate i).1 = true ∧
    (e.select_candidate i).2.state.output
      = e.state.output ++ (e.candidates.get ⟨e.page_index * e.page_size + i, h⟩).text ∧
    (e.select_candidate i).2.state.current_code = [] ∧
    (e.select_candidate i).2.state.raw_keys = [] ∧
    (e.select_candidate i).2.state.composing = "" ∧
    (e.select_candidate i).2.candidates = [] ∧
    (e.select_candidate i).2.page_index = 0 := by
  rw [select_candidate_of_lt e i h]
  rw [commit_composing_of_ne
        ({ e.state with composing := (e.candidates.get ⟨e.page_index * e.page_size + i, h⟩).text })
        ht]
  simp [InputState.clear_composing]

/-- Witness for the amended C3 at a concrete engine. -/
theorem C3_witness :
    (engSelect1.select_candidate 0).1 = true ∧
    (engSelect1.select_candidate 0).2.state.output = "Z" ++ "X" ∧
    (engSelect1.select_candidate 0).2.state.current_code = [] := by
  have h : engSelect1.page_index * engSelect1.page_size + 0 < engSelect1.candidates.length := by
    decide
  have ht : (engSelect1.candidates.get
      ⟨engSelect1.page_index * engSelect1.page_size + 0, h⟩).text ≠ "" := by
    have hx : (engSelect1.candidates.get ⟨0, by decide⟩).text ≠ "" := by decide
    exact hx
  have hmain := C3_select_valid_amended engSelect1 0 h ht
  exact ⟨hmain.1, hmain.2.1, hmain.2.2.1⟩

/-- C4: select_candidate with an absolute index at or past the end of the
candidate list returns false and leaves the whole engine unchanged. -/
theorem C4_select_out_of_range (e : InputEngine) (i : Nat)
    (h : e.candidates.length ≤ e.page_index * e.page_size + i) :
    (e.select_candidate i).1 = false ∧ (e.select_candidate i).2 = e := by
  rw [select_candidate_of_ge e i (by omega)]
  exact ⟨rfl, rfl⟩

/-- Witness for C4 at a concrete engine with an empty candidate list. -/
theorem C4_witness :
    engPhrase1.candidates.length ≤ engPhrase1.page_index * engPhrase1.page_size + 3 ∧
    (engPhrase1.select_candidate 3).1 = false ∧
    (engPhrase1.select_candidate 3).2 = engPhrase1 :=
  ⟨by decide, C4_select_out_of_range engPhrase1 3 (by decide)⟩

/-- C6 counterexample: on a state whose current code is non-empty while the
raw key log is empty, backspace pops from current_code but not raw_keys and
returns false although a symbol was removed. -/
theorem C6_counterexample :
    (stateDesync.backspace).1 = false ∧
    (stateDesync.backspace).2.current_code = [] ∧
    stateDesync.current_code = ['a'] ∧
    (stateDesync.backspace).2.raw_keys = stateDesync.raw_keys := by
  decide

/-- C6 amended: on every state where a non-empty current code comes with a
non-empty raw key log (as in all engine-reachable states), backspace pops one
symbol from current_code and one from raw_keys together and returns true;
on an empty current code it returns false and changes nothing; and when the
popped raw key is the phrase marker the mode is reset to Normal and the
phrase flag cleared. Without that synchronisation hypothesis the lockstep
guarantee fails, as the counterexample shows. -/
theorem C6_backspace_amended (s : InputState)
    (hsync : s.current_code ≠ [] → s.raw_keys ≠ []) :
    (s.current_code = [] → s.backspace = (false, s)) ∧
    (s.current_code ≠ [] →
      (s.backspace).1 = true ∧
      (s.backspace).2.current_code = s.current_code.dropLast ∧
      (s.backspace).2.raw_keys = s.raw_keys.dropLast ∧
      (s.raw_keys.getLast? = some phraseMarker →
        (s.backspace).2.mode = InputMode.Normal ∧
        (s.backspace).2.has_phrase_marker = false)) := by
  constructor
  · exact backspace_of_nil s
  · intro hc
    have h := backspace_of_ne s hc (hsync hc)
    exact ⟨h.1, h.2.1, h.2.2.1, h.2.2.2.2.2⟩

/-- Witness for the amended C6 on a phrase-mode state ending in the marker. -/
theorem C6_witness :
    (stateMarker.backspace).1 = true ∧
    (stateMarker.backspace).2.current_code = ['a'] ∧
    (stateMarker.backspace).2.raw_keys = ['a'] ∧
    (stateMarker.backspace).2.mode = InputMode.Normal := by
  have h := (C6_backspace_amended stateMarker (by decide)).2 (by decide)
  exact ⟨h.1, h.2.1, h.2.2.1, (h.2.2.2 (by decide)).1⟩

/-- C8: next_page advances the page index by exactly one and returns true
precisely below the last page (the page count being the ceiling of the list
length over the page size, equivalently while the next page start is still
in range); prev_page retreats by one exactly when the index is positive;
both refusals leave the engine unchanged, neither touches the candidate
list, and the paging invariant is preserved. -/
theorem C8_paging (e : InputEngine) (hp : e.page_size = 9) :
    ((e.next_page).1 = true ↔
        e.page_index + 1 < (e.candidates.length + e.page_size - 1) / e.page_size) ∧
    ((e.next_page).1 = true ↔ (e.page_index + 1) * e.page_size < e.candidates.length) ∧
    ((e.next_page).1 = true → (e.next_page).2.page_index = e.page_index + 1) ∧
    ((e.next_page).1 = false → (e.next_page).2 = e) ∧
    ((e.prev_page).1 = true ↔ 0 < e.page_index) ∧
    ((e.prev_page).1 = true → (e.prev_page).2.page_index = e.page_index - 1) ∧
    ((e.prev_page).1 = false → (e.prev_page).2 = e) ∧
    (e.next_page).2.candidates = e.candidates ∧
    (e.prev_page).2.candidates = e.candidates ∧
    (pageInvariant e → pageInvariant (e.next_page).2 ∧ pageInvariant (e.prev_page).2) := by
  have h1 : (e.next_page).1 = true ↔
      e.page_index + 1 < (e.candidates.length + e.page_size - 1) / e.page_size := by
    rcases next_page_spec e with ⟨hn, hcn⟩ | ⟨hn, hcn⟩
    · rw [hn]; exact iff_of_true rfl hcn
    · rw [hn]; exact iff_of_false (fun hx => by simp at hx) hcn
  have h2 : (e.next_page).1 = true ↔ (e.page_index + 1) * e.page_size < e.candidates.length := by
    rw [h1, hp]
    omega
  have h3 : (e.next_page).1 = true → (e.next_page).2.page_index = e.page_index + 1 := by
    rcases next_page_spec e with ⟨hn, _⟩ | ⟨hn, _⟩
    · rw [hn]; intro _; rfl
    · rw [hn]; intro hx; simp at hx
  have h4 : (e.next_page).1 = false → (e.next_page).2 = e := by
    rcases next_page_spec e with ⟨hn, _⟩ | ⟨hn, _⟩
    · rw [hn]; intro hx; simp at hx
    · rw [hn]; intro _; rfl
  have h5 : (e.prev_page).1 = true ↔ 0 < e.page_index := by
    rcases prev_page_spec e with ⟨hv, hcv⟩ | ⟨hv, hcv⟩
    · rw [hv]; exact iff_of_true rfl hcv
    · rw [hv]; exact iff_of_false (fun hx => by simp at hx) hcv
  have h6 : (e.prev_page).1 = true → (e.prev_page).2.page_index = e.page_index - 1 := by
    rcases prev_page_spec e with ⟨hv, _⟩ | ⟨hv, _⟩
    · rw [hv]; intro _; rfl
    · rw [hv]; intro hx; simp at hx
  have h7 : (e.prev_page).1 = false → (e.prev_page).2 = e := by
    rcases prev_page_spec e with ⟨hv, _⟩ | ⟨hv, _⟩
    · rw [hv]; intro hx; simp at hx
    · rw [hv]; intro _; rfl
  have h8 : (e.next_page).2.candidates = e.candidates := by
    rcases next_page_spec e with ⟨hn, _⟩ | ⟨hn, _⟩ <;> rw [hn]
  have h9 : (e.prev_page).2.candidates = e.candidates := by
    rcases prev_page_spec e with ⟨hv, _⟩ | ⟨hv, _⟩ <;> rw [hv]
  have h10 : pageInvariant e → pageInvariant (e.next_page).2 ∧ pageInvariant (e.prev_page).2 := by
    intro hI
    constructor
    · rcases next_page_spec e with ⟨hn, hcn⟩ | ⟨hn, hcn⟩
      · rw [hn]
        left
        show (e.page_index + 1) * e.page_size < e.candidates.length
        rw [hp] at hcn ⊢
        omega
      · rw [hn]; exact hI
    · rcases prev_page_spec e with ⟨hv, hcv⟩ | ⟨hv, hcv⟩
      · rw [hv]
        left
        show (e.page_index - 1) * e.page_size < e.candidates.length
        rcases hI with hx | ⟨hx, h0⟩
        · rw [hp] at hx ⊢
          omega
        · rw [h0] at hcv
          exact absurd hcv (by decide)
      · rw [hv]; exact hI
  exact ⟨h1, h2, h3, h4, h5, h6, h7, h8, h9, h10⟩

/-- Witness for C8 at an engine with ten candidates on page 0. -/
theorem C8_witness :
    engPage.page_size = 9 ∧ (engPage.next_page).1 = true ∧
    (engPage.prev_page).1 = false :=
  ⟨rfl, ((C8_paging engPage rfl).2.1).mpr (by decide),
    by
      have h := (C8_paging engPage rfl).2.2.2.2.1
      cases hb : (engPage.prev_page).1
      · rfl
      · exact absurd (h.mp hb) (by decide)⟩

theorem select_candidate_code_le (e : InputEngine) (i : Nat) :
    ((e.select_candidate i).2).state.current_code.length ≤ e.state.current_code.length := by
  by_cases h : e.page_index * e.page_size + i < e.candidates.length
  · rw [select_candidate_of_lt e i h]
    by_cases ht : (e.candidates.get ⟨e.page_index * e.page_size + i, h⟩).text = ""
    · rw [commit_composing_of_eq
          ({ e.state with composing := (e.candidates.get ⟨e.page_index * e.page_size + i, h⟩).text })
          ht]
    · rw [commit_composing_of_ne
          ({ e.state with composing := (e.candidates.get ⟨e.page_index * e.page_size + i, h⟩).text })
          ht]
      exact Nat.zero_le _
  · rw [select_candidate_of_ge e i h]

theorem select_candidate_buffers (e : InputEngine) (i : Nat) :
    ((e.select_candidate i).2.state.current_code = e.state.current_code ∧
     (e.select_candidate i).2.state.raw_keys = e.state.raw_keys) ∨
    ((e.select_candidate i).2.state.current_code = [] ∧
     (e.select_candidate i).2.state.raw_keys = []) := by
  by_cases h : e.page_index * e.page_size + i < e.candidates.length
  · rw [select_candidate_of_lt e i h]
    by_cases ht : (e.candidates.get ⟨e.page_index * e.page_size + i, h⟩).text = ""
    · left
      rw [commit_composing_of_eq
          ({ e.state with composing := (e.candidates.get ⟨e.page_index * e.page_size + i, h⟩).text })
          ht]
      exact ⟨rfl, rfl⟩
    · right
      rw [commit_composing_of_ne
          ({ e.state with composing := (e.candidates.get ⟨e.page_index * e.page_size + i, h⟩).text })
          ht]
      exact ⟨rfl, rfl⟩
  · rw [select_candidate_of_ge e i h]
    left
    exact ⟨rfl, rfl⟩

theorem select_candidate_composing (e : InputEngine) (i : Nat)
    (h0 : e.state.composing = "") :
    (e.select_candidate i).2.state.composing = "" := by
  by_cases h : e.page_index * e.page_size + i < e.candidates.length
  · rw [select_candidate_of_lt e i h]
    by_cases ht : (e.candidates.get ⟨e.page_index * e.page_size + i, h⟩).text = ""
    · rw [commit_composing_of_eq
          ({ e.state with composing := (e.candidates.get ⟨e.page_index * e.page_size + i, h⟩).text })
          ht]
      exact ht
    · rw [commit_composing_of_ne
          ({ e.state with composing := (e.candidates.get ⟨e.page_index * e.page_size + i, h⟩).text })
          ht]
      rfl
  · rw [select_candidate_of_ge e i h]
    exact h0

theorem backspace_code_le (s : InputState) :
    ((s.backspace).2).current_code.length ≤ s.current_code.length := by
  unfold InputState.backspace
  cases hcl : s.current_code.getLast? with
  | none => exact Nat.le_refl _
  | some c1 =>
    dsimp only
    cases hrl : s.raw_keys.getLast? with
    | none =>
      dsimp only
      rw [List.length_dropLast]
      omega
    | some c2 =>
      dsimp only
      split_ifs <;> (dsimp only; rw [List.length_dropLast]; omega)

theorem backspace_composing (s : InputState) :
    ((s.backspace).2).composing = s.composing := by
  unfold InputState.backspace
  cases hcl : s.current_code.getLast? with
  | none => rfl
  | some c1 =>
    dsimp only
    cases hrl : s.raw_keys.getLast? with
    | none => rfl
    | some c2 =>
      dsimp only
      split_ifs <;> rfl

theorem backspace_sync (s : InputState)
    (hinv : s.current_code.length ≤ s.raw_keys.length) :
    ((s.backspace).2).current_code.length ≤ ((s.backspace).2).raw_keys.length := by
  unfold InputState.backspace
  cases hcl : s.current_code.getLast? with
  | none => exact hinv
  | some c1 =>
    have hcc : s.current_code ≠ [] := by
      intro hx
      rw [hx] at hcl
      exact Option.noConfusion hcl
    dsimp only
    cases hrl : s.raw_keys.getLast? with
    | none =>
      exact absurd (List.getLast?_eq_none_iff.mp hrl) (by
        intro hx
        rw [hx] at hinv
        simp at hinv
        exact hcc hinv)
    | some c2 =>
      dsimp only
      have hlen : 0 < s.current_code.length := List.length_pos.mpr hcc
      split_ifs <;> (dsimp only; rw [List.length_dropLast, List.length_dropLast]; omega)

theorem next_page_state (e : InputEngine) : ((e.next_page).2).state = e.state := by
  rcases next_page_spec e with ⟨hn, _⟩ | ⟨hn, _⟩ <;> rw [hn]

theorem prev_page_state (e : InputEngine) : ((e.prev_page).2).state = e.state := by
  rcases prev_page_spec e with ⟨hv, _⟩ | ⟨hv, _⟩ <;> rw [hv]

theorem update_candidates_congr (e1 e2 : InputEngine)
    (hs : e1.state = e2.state) (hd : e1.dict = e2.dict) (hp : e1.page_size = e2.page_size) :
    e1.update_candidates = e2.update_candidates := by
  unfold InputEngine.update_candidates
  dsimp only
  rw [hs, hd, hp]

theorem from_char_digit_contra (k : Char) (hm : (Array30Key.from_char k).isSome = true)
    (h1 : '1' ≤ k) (h9 : k ≤ '9') : False := by
  unfold Array30Key.from_char at hm
  split at hm
  all_goals
    first
      | exact absurd (And.intro h1 h9) (by decide)
      | (split_ifs at hm with hmk
         · subst hmk
           exact absurd h1 (by decide)
         · exact absurd hm (by decide))

/-! Branch lemmas for `handle_key`, one per dispatch arm. -/

theorem handle_key_marker_state (e : InputEngine) :
    ((e.handle_key phraseMarker).2).state = e.state ∨
    ((e.handle_key phraseMarker).2).state = e.state.set_phrase_mode := by
  unfold InputEngine.handle_key
  rw [if_pos rfl]
  split_ifs with hg
  · right
    dsimp only
    rw [update_candidates_state]
  · left
    rfl

theorem handle_key_backspace_state (e : InputEngine) (k : Char)
    (hk : k = Char.ofNat 8 ∨ k = Char.ofNat 127) :
    ((e.handle_key k).2).state = (e.state.backspace).2 := by
  have hk1 : k ≠ phraseMarker := by rcases hk with h | h <;> subst h <;> decide
  unfold InputEngine.handle_key
  rw [if_neg hk1, if_pos hk]
  dsimp only
  split_ifs with h1 h2 h3 <;> simp [update_candidates_state]

theorem handle_key_esc_state (e : InputEngine) (k : Char) (hk : k = Char.ofNat 27) :
    ((e.handle_key k).2).state = e.state.clear_composing := by
  subst hk
  unfold InputEngine.handle_key
  rw [if_neg (by decide), if_neg (by decide), if_pos rfl]

theorem handle_key_enter_state (e : InputEngine) (k : Char)
    (hk : k = '\n' ∨ k = '\r' ∨ k = ' ') :
    ((e.handle_key k).2).state = (e.select_candidate 0).2.state ∨
    ((e.handle_key k).2).state = e.state := by
  have hk1 : k ≠ phraseMarker := by rcases hk with h | h | h <;> subst h <;> decide
  have hk2 : ¬(k = Char.ofNat 8 ∨ k = Char.ofNat 127) := by
    rcases hk with h | h | h <;> subst h <;> decide
  have hk3 : k ≠ Char.ofNat 27 := by rcases hk with h | h | h <;> subst h <;> decide
  unfold InputEngine.handle_key
  rw [if_neg hk1, if_neg hk2, if_neg hk3, if_pos hk]
  split_ifs with h1 h2
  · left
    rfl
  · right
    rfl
  · right
    rfl

theorem handle_key_digit_some (e : InputEngine) (k : Char)
    (hd : '1' ≤ k ∧ k ≤ '9') (hcand : e.candidates ≠ []) :
    e.handle_key k =
      ((if (e.select_candidate (k.toNat - Char.toNat '1')).1 = true then KeyResult.Committed
        else KeyResult.NeedUpdate),
       (e.select_candidate (k.toNat - Char.toNat '1')).2) := by
  have hk1 : k ≠ phraseMarker := fun h => absurd hd.1 (by subst h; decide)
  have hk2 : ¬(k = Char.ofNat 8 ∨ k = Char.ofNat 127) := by
    rintro (h | h) <;> subst h
    · exact absurd hd.1 (by decide)
    · exact absurd hd.2 (by decide)
  have hk3 : k ≠ Char.ofNat 27 := fun h => absurd hd.1 (by subst h; decide)
  have hk4 : ¬(k = '\n' ∨ k = '\r' ∨ k = ' ') := by
    rintro (h | h | h) <;> subst h <;> exact absurd hd.1 (by decide)
  unfold InputEngine.handle_key
  rw [if_neg hk1, if_neg hk2, if_neg hk3, if_neg hk4, if_pos hd, if_pos hcand]
  dsimp only
  cases hr : (e.select_candidate (k.toNat - Char.toNat '1')).1 <;> simp [hr]

theorem handle_key_digit_none (e : InputEngine) (k : Char)
    (hd : '1' ≤ k ∧ k ≤ '9') (hcand : e.candidates = []) :
    e.handle_key k =
      (KeyResult.Committed, { e with state := e.state.commit_direct (String.singleton k) }) := by
  have hk1 : k ≠ phraseMarker := fun h => absurd hd.1 (by subst h; decide)
  have hk2 : ¬(k = Char.ofNat 8 ∨ k = Char.ofNat 127) := by
    rintro (h | h) <;> subst h
    · exact absurd hd.1 (by decide)
    · exact absurd hd.2 (by decide)
  have hk3 : k ≠ Char.ofNat 27 := fun h => absurd hd.1 (by subst h; decide)
  have hk4 : ¬(k = '\n' ∨ k = '\r' ∨ k = ' ') := by
    rintro (h | h | h) <;> subst h <;> exact absurd hd.1 (by decide)
  unfold InputEngine.handle_key
  rw [if_neg hk1, if_neg hk2, if_neg hk3, if_neg hk4, if_pos hd,
      if_neg (not_not_intro hcand)]

theorem handle_key_zero_some (e : InputEngine) (k : Char)
    (hk : k = '0') (hcand : e.candidates ≠ []) :
    e.handle_key k = (KeyResult.Committed, (e.select_candidate 9).2) := by
  subst hk
  unfold InputEngine.handle_key
  rw [if_neg (by decide), if_neg (by decide), if_neg (by decide), if_neg (by decide),
      if_neg (by decide), if_pos rfl, if_pos hcand]

theorem handle_key_zero_none (e : InputEngine) (k : Char)
    (hk : k = '0') (hcand : e.candidates = []) :
    e.handle_key k =
      (KeyResult.Committed, { e with state := e.state.commit_direct (String.singleton '0') }) := by
  subst hk
  unfold InputEngine.handle_key
  rw [if_neg (by decide), if_neg (by decide), if_neg (by decide), if_neg (by decide),
      if_neg (by decide), if_pos rfl, if_neg (not_not_intro hcand)]

theorem handle_key_mapped_eq (e : InputEngine) (k : Char)
    (hm : (Array30Key.from_char k).isSome = true) (hk1 : k ≠ phraseMarker) :
    e.handle_key k =
      (KeyResult.NeedUpdate,
        InputEngine.update_candidates
          { e with
            candidates := ([] : List Candidate), page_index := 0,
            state :=
              { e.state with
                raw_keys := e.state.raw_keys ++ [k],
                current_code :=
                  if e.state.current_code.length < 4 then e.state.current_code ++ [k]
                  else e.state.current_code } }) := by
  have hk2 : ¬(k = Char.ofNat 8 ∨ k = Char.ofNat 127) := by
    rintro (h | h) <;> subst h <;> exact absurd hm (by decide)
  have hk3 : k ≠ Char.ofNat 27 := fun h => by subst h; exact absurd hm (by decide)
  have hk4 : ¬(k = '\n' ∨ k = '\r' ∨ k = ' ') := by
    rintro (h | h | h) <;> subst h <;> exact absurd hm (by decide)
  have hk5 : ¬('1' ≤ k ∧ k ≤ '9') := fun hd => from_char_digit_contra k hm hd.1 hd.2
  have hk6 : k ≠ '0' := fun h => by subst h; exact absurd hm (by decide)
  unfold InputEngine.handle_key
  rw [if_neg hk1, if_neg hk2, if_neg hk3, if_neg hk4, if_neg hk5, if_neg hk6, if_pos hm]
  dsimp only
  simp only [Prod.mk.injEq, true_and]
  by_cases hcand : e.candidates = []
  · rw [if_neg (not_not_intro hcand)]
    by_cases hmode : e.state.mode = InputMode.PhraseInput <;>
      by_cases hlt : e.state.current_code.length < 4 <;>
        simp only [InputState.add_key, hmode, hlt, ite_true, ite_false, if_true, if_false] <;>
      exact update_candidates_congr _ _ rfl rfl rfl
  · rw [if_pos hcand]
    by_cases hmode : e.state.mode = InputMode.PhraseInput <;>
      by_cases hlt : e.state.current_code.length < 4 <;>
        simp only [InputState.add_key, hmode, hlt, ite_true, ite_false, if_true, if_false] <;>
      exact update_candidates_congr _ _ rfl rfl rfl

theorem handle_key_other_state (e : InputEngine) (k : Char)
    (hk1 : k ≠ phraseMarker) (hk2 : ¬(k = Char.ofNat 8 ∨ k = Char.ofNat 127))
    (hk3 : k ≠ Char.ofNat 27) (hk4 : ¬(k = '\n' ∨ k = '\r' ∨ k = ' '))
    (hk5 : ¬('1' ≤ k ∧ k ≤ '9')) (hk6 : k ≠ '0')
    (hk7 : ¬((Array30Key.from_char k).isSome = true)) :
    ((e.handle_key k).2).state =
      (if e.state.current_code ≠ [] then e.state.clear_composing
       else e.state).commit_direct (String.singleton k) := by
  unfold InputEngine.handle_key
  rw [if_neg hk1, if_neg hk2, if_neg hk3, if_neg hk4, if_neg hk5, if_neg hk6, if_neg hk7]
  dsimp only
  split_ifs with h <;> rfl

/-! Master invariant-preservation lemmas for `handle_key`. -/

theorem handle_key_code_length (e : InputEngine) (k : Char)
    (hlen : e.state.current_code.length ≤ 4) :
    ((e.handle_key k).2).state.current_code.length ≤ 4 := by
  by_cases hk1 : k = phraseMarker
  · subst hk1
    rcases handle_key_marker_state e with h | h <;> rw [h]
    · exact hlen
    · simpa [InputState.set_phrase_mode, InputState.add_key] using hlen
  by_cases hk2 : k = Char.ofNat 8 ∨ k = Char.ofNat 127
  · rw [handle_key_backspace_state e k hk2]
    exact le_trans (backspace_code_le _) hlen
  by_cases hk3 : k = Char.ofNat 27
  · rw [handle_key_esc_state e k hk3]
    simp [InputState.clear_composing]
  by_cases hk4 : k = '\n' ∨ k = '\r' ∨ k = ' '
  · rcases handle_key_enter_state e k hk4 with h | h <;> rw [h]
    · exact le_trans (select_candidate_code_le _ _) hlen
    · exact hlen
  by_cases hk5 : '1' ≤ k ∧ k ≤ '9'
  · by_cases hcand : e.candidates = []
    · rw [handle_key_digit_none e k hk5 hcand]
      simpa [InputState.commit_direct] using hlen
    · rw [handle_key_digit_some e k hk5 hcand]
      exact le_trans (select_candidate_code_le _ _) hlen
  by_cases hk6 : k = '0'
  · by_cases hcand : e.candidates = []
    · rw [handle_key_zero_none e k hk6 hcand]
      simpa [InputState.commit_direct] using hlen
    · rw [handle_key_zero_some e k hk6 hcand]
      exact le_trans (select_candidate_code_le _ _) hlen
  by_cases hk7 : (Array30Key.from_char k).isSome = true
  · rw [handle_key_mapped_eq e k hk7 hk1]
    rw [update_candidates_state]
    dsimp only
    split_ifs with h
    · simp only [List.length_append, List.length_cons, List.length_nil]
      omega
    · exact hlen
  · rw [handle_key_other_state e k hk1 hk2 hk3 hk4 hk5 hk6 hk7]
    split_ifs with h
    · simp [InputState.clear_composing, InputState.commit_direct]
    · simpa [InputState.commit_direct] using hlen

theorem handle_key_composing (e : InputEngine) (k : Char)
    (h0 : e.state.composing = "") :
    ((e.handle_key k).2).state.composing = "" := by
  by_cases hk1 : k = phraseMarker
  · subst hk1
    rcases handle_key_marker_state e with h | h <;> rw [h]
    · exact h0
    · simpa [InputState.set_phrase_mode, InputState.add_key] using h0
  by_cases hk2 : k = Char.ofNat 8 ∨ k = Char.ofNat 127
  · rw [handle_key_backspace_state e k hk2, backspace_composing]
    exact h0
  by_cases hk3 : k = Char.ofNat 27
  · rw [handle_key_esc_state e k hk3]
    rfl
  by_cases hk4 : k = '\n' ∨ k = '\r' ∨ k = ' '
  · rcases handle_key_enter_state e k hk4 with h | h <;> rw [h]
    · exact select_candidate_composing e 0 h0
    · exact h0
  by_cases hk5 : '1' ≤ k ∧ k ≤ '9'
  · by_cases hcand : e.candidates = []
    · rw [handle_key_digit_none e k hk5 hcand]
      simpa [InputState.commit_direct] using h0
    · rw [handle_key_digit_some e k hk5 hcand]
      exact select_candidate_composing e _ h0
  by_cases hk6 : k = '0'
  · by_cases hcand : e.candidates = []
    · rw [handle_key_zero_none e k hk6 hcand]
      simpa [InputState.commit_direct] using h0
    · rw [handle_key_zero_some e k hk6 hcand]
      exact select_candidate_composing e 9 h0
  by_cases hk7 : (Array30Key.from_char k).isSome = true
  · rw [handle_key_mapped_eq e k hk7 hk1, update_candidates_state]
    simpa using h0
  · rw [handle_key_other_state e k hk1 hk2 hk3 hk4 hk5 hk6 hk7]
    split_ifs with h
    · simp [InputState.clear_composing, InputState.commit_direct]
    · simpa [InputState.commit_direct] using h0

theorem handle_key_sync (e : InputEngine) (k : Char)
    (hinv : e.state.current_code.length ≤ e.state.raw_keys.length) :
    ((e.handle_key k).2).state.current_code.length
      ≤ ((e.handle_key k).2).state.raw_keys.length := by
  by_cases hk1 : k = phraseMarker
  · subst hk1
    rcases handle_key_marker_state e with h | h <;> rw [h]
    · exact hinv
    · simp only [InputState.set_phrase_mode, InputState.add_key, List.length_append,
        List.length_cons, List.length_nil]
      omega
  by_cases hk2 : k = Char.ofNat 8 ∨ k = Char.ofNat 127
  · rw [handle_key_backspace_state e k hk2]
    exact backspace_sync e.state hinv
  by_cases hk3 : k = Char.ofNat 27
  · rw [handle_key_esc_state e k hk3]
    simp [InputState.clear_composing]
  by_cases hk4 : k = '\n' ∨ k = '\r' ∨ k = ' '
  · rcases handle_key_enter_state e k hk4 with h | h <;> rw [h]
    · rcases select_candidate_buffers e 0 with ⟨hc, hr⟩ | ⟨hc, hr⟩ <;> rw [hc, hr]
      exact hinv
    · exact hinv
  by_cases hk5 : '1' ≤ k ∧ k ≤ '9'
  · by_cases hcand : e.candidates = []
    · rw [handle_key_digit_none e k hk5 hcand]
      simpa [InputState.commit_direct] using hinv
    · rw [handle_key_digit_some e k hk5 hcand]
      dsimp only
      rcases select_candidate_buffers e (k.toNat - Char.toNat '1') with ⟨hc, hr⟩ | ⟨hc, hr⟩ <;>
        rw [hc, hr]
      exact hinv
  by_cases hk6 : k = '0'
  · by_cases hcand : e.candidates = []
    · rw [handle_key_zero_none e k hk6 hcand]
      simpa [InputState.commit_direct] using hinv
    · rw [handle_key_zero_some e k hk6 hcand]
      dsimp only
      rcases select_candidate_buffers e 9 with ⟨hc, hr⟩ | ⟨hc, hr⟩ <;> rw [hc, hr]
      exact hinv
  by_cases hk7 : (Array30Key.from_char k).isSome = true
  · rw [handle_key_mapped_eq e k hk7 hk1, update_candidates_state]
    dsimp only
    split_ifs with h <;>
      simp only [List.length_append, List.length_cons, List.length_nil] <;> omega
  · rw [handle_key_other_state e k hk1 hk2 hk3 hk4 hk5 hk6 hk7]
    split_ifs with h
    · simp [InputState.clear_composing, InputState.commit_direct]
    · simpa [InputState.commit_direct] using hinv

/-- C2: over every sequence of mapped-key inputs fed one at a time from the
initial state, the current code length never exceeds 4, whatever mode the
engine is in (the 4-symbol cap guards every push in both mode branches). -/
theorem C2_code_length_bound (d : Dictionary) (ks : List Char)
    (hmapped : ∀ k ∈ ks, (Array30Key.from_char k).isSome = true) :
    (feedKeys (InputEngine.new d) ks).state.current_code.length ≤ 4 := by
  have hgen : ∀ (ms : List Char) (e : InputEngine),
      e.state.current_code.length ≤ 4 →
      (feedKeys e ms).state.current_code.length ≤ 4 := by
    intro ms
    induction ms with
    | nil => intro e h; exact h
    | cons m ms ih =>
      intro e h
      exact ih _ (handle_key_code_length e m h)
  exact hgen ks (InputEngine.new d) (Nat.zero_le 4)

/-- Witness for C2 on five mapped keys. -/
theorem C2_witness :
    (∀ k ∈ (['a', 'b', 'c', 'd', 'e'] : List Char), (Array30Key.from_char k).isSome = true) ∧
    (feedKeys (InputEngine.new emptyDict) ['a', 'b', 'c', 'd', 'e']).state.current_code.length
      ≤ 4 :=
  ⟨by decide, C2_code_length_bound emptyDict ['a', 'b', 'c', 'd', 'e'] (by decide)⟩

/-- C9: in every state reachable from the initial engine through the public
operations, the composing buffer is empty once the operation returns — the
only write to it (in select_candidate) is immediately committed. -/
theorem C9_composing_empty (d : Dictionary) (ops : List EngineOp) :
    (runOps d ops).state.composing = "" := by
  have hgen : ∀ (ms : List EngineOp) (e : InputEngine),
      e.state.composing = "" → (ms.foldl applyOp e).state.composing = "" := by
    intro ms
    induction ms with
    | nil => intro e h; exact h
    | cons op ms ih =>
      intro e h
      refine ih _ ?_
      cases op with
      | key c => exact handle_key_composing e c h
      | select i => exact select_candidate_composing e i h
      | nextPage =>
        show ((e.next_page).2).state.composing = ""
        rw [next_page_state]
        exact h
      | prevPage =>
        show ((e.prev_page).2).state.composing = ""
        rw [prev_page_state]
        exact h
      | clearOutput =>
        show (e.clear_output).state.composing = ""
        rfl
  exact hgen ops (InputEngine.new d) rfl

/-- C10: in every state reachable from the initial engine through handle_key,
the raw key log is at least as long as the current code; consequently, when
the current code is non-empty, backspace succeeds and pops both buffers in
lockstep. -/
theorem C10_raw_keys_cover_code (d : Dictionary) (ks : List Char) :
    (feedKeys (InputEngine.new d) ks).state.current_code.length
      ≤ (feedKeys (InputEngine.new d) ks).state.raw_keys.length ∧
    ((feedKeys (InputEngine.new d) ks).state.current_code ≠ [] →
      (((feedKeys (InputEngine.new d) ks).state.backspace).1 = true ∧
       ((feedKeys (InputEngine.new d) ks).state.backspace).2.current_code
         = (feedKeys (InputEngine.new d) ks).state.current_code.dropLast ∧
       ((feedKeys (InputEngine.new d) ks).state.backspace).2.raw_keys
         = (feedKeys (InputEngine.new d) ks).state.raw_keys.dropLast)) := by
  have hinv : (feedKeys (InputEngine.new d) ks).state.current_code.length
      ≤ (feedKeys (InputEngine.new d) ks).state.raw_keys.length := by
    have hgen : ∀ (ms : List Char) (e : InputEngine),
        e.state.current_code.length ≤ e.state.raw_keys.length →
        (feedKeys e ms).state.current_code.length ≤ (feedKeys e ms).state.raw_keys.length := by
      intro ms
      induction ms with
      | nil => intro e h; exact h
      | cons m ms ih =>
        intro e h
        exact ih _ (handle_key_sync e m h)
    exact hgen ks (InputEngine.new d) (Nat.le_refl 0)
  refine ⟨hinv, fun hne => ?_⟩
  have hraw : (feedKeys (InputEngine.new d) ks).state.raw_keys ≠ [] := by
    intro hr
    rw [hr] at hinv
    simp at hinv
    exact hne hinv
  have h := backspace_of_ne _ hne hraw
  exact ⟨h.1, h.2.1, h.2.2.1⟩

/-- Witness for C10 after feeding one mapped key. -/
theorem C10_witness :
    (feedKeys (InputEngine.new emptyDict) ['a']).state.current_code ≠ [] ∧
    ((feedKeys (InputEngine.new emptyDict) ['a']).state.backspace).1 = true :=
  ⟨by decide, ((C10_raw_keys_cover_code emptyDict ['a']).2 (by decide)).1⟩

/-- C5 counterexample: with one candidate present, digit 0 addresses the
out-of-range tenth slot of the page, yet handle_key returns Committed, not
the NeedUpdate the claim requires for an out-of-range index. -/
theorem C5_counterexample :
    engSelect1.candidates ≠ [] ∧
    engSelect1.candidates.length ≤ engSelect1.page_index * engSelect1.page_size + 9 ∧
    (engSelect1.handle_key '0').1 = KeyResult.Committed ∧
    (engSelect1.handle_key '0').1 ≠ KeyResult.NeedUpdate := by
  decide

/-- C5 amended: digits 1 to 9 with candidates present select page-relative
index digit minus one and return Committed on success and NeedUpdate when
that index is out of range; digit 0 with candidates present selects index 9
but returns Committed regardless of whether the selection succeeded; with no
candidates any digit is committed to output as literal text, leaving the
engine otherwise unchanged (in particular current_code). -/
theorem C5_digit_keys_amended (e : InputEngine) (k : Char) :
    (('1' ≤ k ∧ k ≤ '9') →
      (e.candidates ≠ [] →
        ((e.select_candidate (k.toNat - Char.toNat '1')).1 = true →
          e.handle_key k
            = (KeyResult.Committed, (e.select_candidate (k.toNat - Char.toNat '1')).2)) ∧
        ((e.select_candidate (k.toNat - Char.toNat '1')).1 = false →
          e.handle_key k
            = (KeyResult.NeedUpdate, (e.select_candidate (k.toNat - Char.toNat '1')).2))) ∧
      (e.candidates = [] →
        e.handle_key k
          = (KeyResult.Committed,
             { e with state := e.state.commit_direct (String.singleton k) }))) ∧
    (k = '0' →
      (e.candidates ≠ [] →
        e.handle_key k = (KeyResult.Committed, (e.select_candidate 9).2)) ∧
      (e.candidates = [] →
        e.handle_key k
          = (KeyResult.Committed,
             { e with state := e.state.commit_direct (String.singleton k) }))) := by
  constructor
  · intro hd
    constructor
    · intro hcand
      constructor
      · intro hsel
        rw [handle_key_digit_some e k hd hcand, if_pos hsel]
      · intro hsel
        rw [handle_key_digit_some e k hd hcand,
            if_neg (by rw [hsel]; exact fun hx => Bool.noConfusion hx)]
    · intro hcand
      exact handle_key_digit_none e k hd hcand
  · intro hk0
    subst hk0
    constructor
    · intro hcand
      exact handle_key_zero_some e '0' rfl hcand
    · intro hcand
      exact handle_key_zero_none e '0' rfl hcand

/-- Witness for the amended C5: digit 5 with an empty engine is committed as
literal output. -/
theorem C5_witness :
    (InputEngine.new emptyDict).handle_key '5'
      = (KeyResult.Committed,
         { InputEngine.new emptyDict with
             state := (InputEngine.new emptyDict).state.commit_direct (String.singleton '5') }) :=
  ((C5_digit_keys_amended (InputEngine.new emptyDict) '5').1 (by decide)).2 rfl

/-- C7 counterexample: the apostrophe has a defined code mapping, yet with a
short current code handle_key does not append it to current_code (the phrase
marker arm takes priority over the mapped-key arm). -/
theorem C7_counterexample :
    (Array30Key.from_char phraseMarker).isSome = true ∧
    engEmptyText.state.current_code.length < 4 ∧
    (engEmptyText.handle_key phraseMarker).1 = KeyResult.NeedUpdate ∧
    (engEmptyText.handle_key phraseMarker).2.state.current_code = ['a'] ∧
    (engEmptyText.handle_key phraseMarker).2.state.current_code
      ≠ engEmptyText.state.current_code ++ [phraseMarker] := by
  decide

/-- C7 amended: for every symbol other than the apostrophe with a defined
code mapping, handle_key clears any existing candidate list and page cursor,
appends the symbol to both raw_keys and current_code subject to the 4-symbol
cap regardless of mode, recomputes candidates, and returns NeedUpdate. -/
theorem C7_mapped_key_amended (e : InputEngine) (k : Char)
    (hm : (Array30Key.from_char k).isSome = true) (hk : k ≠ phraseMarker) :
    (e.handle_key k).1 = KeyResult.NeedUpdate ∧
    (e.handle_key k).2.state.raw_keys = e.state.raw_keys ++ [k] ∧
    (e.handle_key k).2.state.current_code
      = (if e.state.current_code.length < 4 then e.state.current_code ++ [k]
         else e.state.current_code) ∧
    (e.handle_key k).2
      = InputEngine.update_candidates
          { e with
            candidates := ([] : List Candidate), page_index := 0,
            state :=
              { e.state with
                raw_keys := e.state.raw_keys ++ [k],
                current_code :=
                  if e.state.current_code.length < 4 then e.state.current_code ++ [k]
                  else e.state.current_code } } := by
  have heq := handle_key_mapped_eq e k hm hk
  refine ⟨by rw [heq], ?_, ?_, by rw [heq]⟩
  · rw [heq]
    dsimp only
    rw [update_candidates_state]
  · rw [heq]
    dsimp only
    rw [update_candidates_state]

/-- Witness for the amended C7 at the initial engine and key a. -/
theorem C7_witness :
    ((InputEngine.new emptyDict).handle_key 'a').1 = KeyResult.NeedUpdate ∧
    ((InputEngine.new emptyDict).handle_key 'a').2.state.raw_keys = ['a'] ∧
    ((InputEngine.new emptyDict).handle_key 'a').2.state.current_code = ['a'] := by
  have h := C7_mapped_key_amended (InputEngine.new emptyDict) 'a' (by decide) (by decide)
  refine ⟨h.1, ?_, ?_⟩
  · rw [h.2.1]
    rfl
  · rw [h.2.2.1]
    rfl
